import Mathlib

/-!
Verification of the dirscan repository (storagebit/dirscan).

Shallow embedding of the Go sources:
* `src/src/main.go`           -- the main single-threaded scanner variant
* `src/unnamed/part_001`      -- an earlier single-threaded variant
* `src/unnamed/part_002`      -- two worker-pool variants plus one more
                                 single-threaded variant

Machine integers: Go int64 values are modelled as `Int`, Go uint64 values as
`Nat`.  None of the verified properties depends on wrap-around, and the sum
equalities considered here are preserved by reduction mod 2^64, so the
unbounded embedding is faithful for every statement below.

Floating point: the only float use that the claims reach is the
rendering of `float64(a)/float64(b)` with `%.1f` or `%.2f` in the size
formatters.  That rendering is modelled as the correctly rounded (ties to
even, as fmt rounds the exact double) fixed-point representation of the exact
rational a/b; at every concrete input used in a theorem below the rational is
exactly representable, so the model and the Go code print the same digits.
-/

/-! ## Data model (structs of main.go / part_001 / part_002 third variant) -/

/-- Go struct `fileTypeUserInfo`: per-user entry nested in a file type group. -/
structure FileTypeUserInfo where
  name : String
  size : Int
  count : Int
deriving DecidableEq

/-- Go struct `fileType`: one per distinct extension label. -/
structure FileType where
  extension : String
  size : Int
  count : Int
  users : List FileTypeUserInfo
deriving DecidableEq

/-- Go struct `userFileType`: per-extension entry nested in a user group. -/
structure UserFileType where
  extension : String
  size : Int
  count : Int
deriving DecidableEq

/-- Go struct `userInfo`: one per distinct owner name. -/
structure UserInfo where
  name : String
  size : Int
  count : Int
  filetypes : List UserFileType
deriving DecidableEq

/-- Go struct `user.User` (the two fields the program touches). -/
structure GoUser where
  uid : String
  username : String
deriving DecidableEq

/-! ## Size formatters -/

/-- Round num/den to the nearest integer, ties to even (den > 0 assumed);
this is how fmt rounds an exactly representable double. -/
def roundHalfEven (num den : Nat) : Nat :=
  let q := num / den
  let r := num % den
  if 2 * r < den then q
  else if den < 2 * r then q + 1
  else if q % 2 = 0 then q else q + 1

/-- Decimal rendering of num/den with one fractional digit (`%.1f`). -/
def formatFixed1 (num den : Nat) : String :=
  let t := roundHalfEven (num * 10) den
  s!"{t / 10}.{t % 10}"

/-- Decimal rendering of num/den with two fractional digits (`%.2f`). -/
def formatFixed2 (num den : Nat) : String :=
  let t := roundHalfEven (num * 100) den
  let frac := t % 100
  if frac < 10 then s!"{t / 100}.0{frac}" else s!"{t / 100}.{frac}"

/-- The byte of the Go string constant "KMGTPE" at a given index. -/
def unitLetter (i : Nat) : Char :=
  ['K', 'M', 'G', 'T', 'P', 'E'].getD i 'K'

/-- Fuel-driven form of the loop `for n := size / unit; n >= unit; n /= unit`
in `formatSize` (part_002): returns the final (div, exp).  The fuel only
bounds the iteration count; since n strictly shrinks each round, fuel = n is
always enough, so the function computes exactly what the Go loop computes. -/
def fsLoop : Nat → Nat → Nat → Nat → Nat × Nat
  | 0, _, div, exp => (div, exp)
  | fuel + 1, n, div, exp =>
      if 1024 ≤ n then fsLoop fuel (n / 1024) (div * 1024) (exp + 1)
      else (div, exp)

/-- Go func `formatSize` of src/unnamed/part_002 (both worker-pool variants):
sizes under 1024 print as a plain byte count, larger sizes with one binary
unit suffix. -/
def formatSize (size : Nat) : String :=
  if size < 1024 then s!"{size} B"
  else
    let p := fsLoop (size / 1024) (size / 1024) 1024 0
    s!"{formatFixed1 size p.1} {unitLetter p.2}iB"

/-- Fuel-driven integer base-1024 logarithm; models the Go expression
`int64(math.Log(float64(size)) / math.Log(1024))` of main.go by the exact
value floor(log_1024 size).  (The double computation agrees with the exact
logarithm at every input used below: the quotient of correctly rounded
logarithms of exact powers of 1024 is exact, and 1536 is far from a
power boundary.) -/
def intLog1024 : Nat → Nat → Nat
  | 0, _ => 0
  | fuel + 1, n => if 1024 ≤ n then intLog1024 fuel (n / 1024) + 1 else 0

/-- Go func `humanReadableSize` of src/src/main.go. -/
def humanReadableSize (size : Int) : String :=
  if size < 1024 then s!"{size} B"
  else
    let n := size.toNat
    let exp := intLog1024 n n
    if exp < 7 then s!"{formatFixed1 n (1024 ^ exp)} {unitLetter (exp - 1)}iB"
    else s!"{formatFixed1 n (1024 ^ 7)} ZB"

/-- Go func `humanReadableSize` of src/unnamed/part_001 (also the third
variant in part_002): hard-coded unit ladder, two decimals, and the word
"bytes" for small sizes. -/
def humanReadableSizeP1 (size : Int) : String :=
  if size < 1024 then s!"{size} bytes"
  else if size < 1024 * 1024 then s!"{formatFixed2 size.toNat 1024} KiB"
  else if size < 1024 * 1024 * 1024 then
    s!"{formatFixed2 size.toNat (1024 * 1024)} MiB"
  else s!"{formatFixed2 size.toNat (1024 * 1024 * 1024)} GiB"

/-! ## Classifier (extension-less files, main.go lines 264-301) -/

/-- Go inner loop `for _, c := range line`: does the line contain a rune
outside the printable ASCII range 32..126? -/
def lineHasNonPrintable (line : List Nat) : Bool :=
  line.any (fun c => c < 32 || 126 < c)

/-- The classification loop of main.go: `isBinary` starts false and is never
reset, each examined line then overwrites `extension` according to the
current value of the flag.  First argument is the running `isBinary` flag,
second the running `extension` value. -/
def classifyGo : Bool → String → List (List Nat) → String
  | _, ext, [] => ext
  | isBin, _, line :: rest =>
      let isBin2 := isBin || lineHasNonPrintable line
      classifyGo isBin2
        (if isBin2 then "no_extension_binary" else "no_extension_text") rest

/-- Label computed for an opened extension-less file whose first lines are
given: the loop examines at most the first 10 lines; with no line at all the
extension stays the empty string. -/
def classifyLines (lines : List (List Nat)) : String :=
  classifyGo false "" (lines.take 10)

/-- Modelled from the spec sentence of claim C3 (the words of the claim, for
comparison with `classifyLines`): the label as if only the last examined
line decided it. -/
def classifyLastLineSpec (lines : List (List Nat)) : String :=
  match (lines.take 10).getLast? with
  | none => ""
  | some l =>
      if lineHasNonPrintable l then "no_extension_binary"
      else "no_extension_text"

/-! ## Owner resolution (main.go lines 310-323) -/

/-- The owner value after `user.LookupId`: on success the looked-up user, on
failure the fallback literal `&user.User{Uid: fmt.Sprintf("%d", uid)}`,
whose Username field is the zero value "". -/
def lookupIdResult (lookup : Option GoUser) (uid : Nat) : GoUser :=
  match lookup with
  | some u => u
  | none => { uid := toString uid, username := "" }

/-! ## Average file size (part_002) -/

/-- Go division `a / b` on uint64: a zero divisor is a runtime panic. -/
def goDiv (a b : Nat) : Except String Nat :=
  if b = 0 then Except.error "runtime error: integer divide by zero"
  else Except.ok (a / b)

/-- The guarded average of the first worker-pool variant (part_002 lines
233-237): `if totalFileCount > 0 { avg = totalCapacity / totalFileCount }`
with avg initialised to 0. -/
def avgFileSizeGuarded (totalCapacity totalFileCount : Nat) : Nat :=
  if 0 < totalFileCount then totalCapacity / totalFileCount else 0

/-- The unguarded average of the second worker-pool variant (part_002 line
505): `formatSize(totalCapacity/totalFileCount)` with no zero test. -/
def reportAverageUnguarded (totalCapacity totalFileCount : Nat) :
    Except String Nat :=
  goDiv totalCapacity totalFileCount

/-! ## Aggregation (main.go lines 324-433, identical in part_001 and the
third part_002 variant)

Each Go lookup-or-create loop scans the list for the first entry with the
matching key, updates it in place and breaks; when no entry matches it
appends a fresh entry.  The recursive functions below mirror that exactly. -/

/-- The inner loop over `fileTypes[i].users` followed by the append when the
owner was not found. -/
def updateFTUsers (us : List FileTypeUserInfo) (owner : String) (size : Int) :
    List FileTypeUserInfo :=
  match us with
  | [] => [{ name := owner, size := size, count := 1 }]
  | u :: rest =>
      if u.name = owner then
        { u with size := u.size + size, count := u.count + 1 } :: rest
      else u :: updateFTUsers rest owner size

/-- The loop over `fileTypes` followed by the append when the extension was
not found. -/
def updateFileTypes (l : List FileType) (ext owner : String) (size : Int) :
    List FileType :=
  match l with
  | [] =>
      [{ extension := ext, size := size, count := 1,
         users := [{ name := owner, size := size, count := 1 }] }]
  | ft :: rest =>
      if ft.extension = ext then
        { ft with size := ft.size + size, count := ft.count + 1,
                  users := updateFTUsers ft.users owner size } :: rest
      else ft :: updateFileTypes rest ext owner size

/-- The inner loop over `users[i].filetypes` followed by the append when the
extension was not found. -/
def updateUserFiletypes (fts : List UserFileType) (ext : String)
    (size : Int) : List UserFileType :=
  match fts with
  | [] => [{ extension := ext, size := size, count := 1 }]
  | ft :: rest =>
      if ft.extension = ext then
        { ft with size := ft.size + size, count := ft.count + 1 } :: rest
      else ft :: updateUserFiletypes rest ext size

/-- The loop over `users` followed by the append when the owner was not
found. -/
def updateUsers (l : List UserInfo) (owner ext : String) (size : Int) :
    List UserInfo :=
  match l with
  | [] =>
      [{ name := owner, size := size, count := 1,
         filetypes := [{ extension := ext, size := size, count := 1 }] }]
  | u :: rest =>
      if u.name = owner then
        { u with size := u.size + size, count := u.count + 1,
                 filetypes := updateUserFiletypes u.filetypes ext size } :: rest
      else u :: updateUsers rest owner ext size

/-! ## Scan state and the walk callbacks -/

/-- The mutable state of a scan: the three run totals plus the two grouping
lists (start time and elapsed time are irrelevant to the claims). -/
structure ScanState where
  totalFilesCount : Int
  totalCapacity : Int
  totalDirectoriesCount : Int
  fileTypes : List FileType
  users : List UserInfo
deriving DecidableEq

/-- All counters zero, both grouping lists nil. -/
def initState : ScanState :=
  { totalFilesCount := 0, totalCapacity := 0, totalDirectoriesCount := 0,
    fileTypes := [], users := [] }

/-- Outcome of `os.Open` on an extension-less file: failure, or success with
the lines the scanner would read. -/
inductive OpenOutcome where
  | failed
  | opened (lines : List (List Nat))
deriving DecidableEq

/-- What the walk callback can learn about one visited entry whose FileInfo
is present: directory flag, `filepath.Ext` of the path, open outcome (used
only when the extension is empty), `info.Size()`, the numeric owner id, and
the result of `user.LookupId` (none = lookup error). -/
structure EntryInfo where
  isDir : Bool
  ext : String
  openOutcome : OpenOutcome
  size : Int
  uid : Nat
  lookup : Option GoUser
deriving DecidableEq

/-- One invocation of the main.go walk callback: the error argument passed
by filepath.Walk plus the entry data (this model covers invocations whose
FileInfo is non-nil; the nil-FileInfo invocation is modelled separately for
the part_001 callback, which dereferences it). -/
structure WalkEntry where
  walkErr : Bool
  info : EntryInfo
deriving DecidableEq

/-- What one callback invocation does to the state, factored out of the
control flow: nothing, count a directory, count a file and stop (the
`return nil` before the capacity update), count a file and its capacity and
stop (the `return nil` after it), or fully process an observation. -/
inductive StepAction where
  | skip
  | dir
  | fileSkippedAfterCount
  | fileSkippedAfterCapacity (size : Int)
  | observe (ext owner : String) (size : Int)
deriving DecidableEq

/-- Both grouping updates for one fully processed file observation
(main.go lines 324-433: the fileTypes block, then the users block). -/
def applyObservation (s : ScanState) (ext owner : String) (size : Int) :
    ScanState :=
  { s with fileTypes := updateFileTypes s.fileTypes ext owner size,
           users := updateUsers s.users owner ext size }

/-- Effect of a step action on the scan state. -/
def applyAction (s : ScanState) : StepAction → ScanState
  | .skip => s
  | .dir =>
      { s with totalDirectoriesCount := s.totalDirectoriesCount + 1 }
  | .fileSkippedAfterCount =>
      { s with totalFilesCount := s.totalFilesCount + 1 }
  | .fileSkippedAfterCapacity size =>
      { s with totalFilesCount := s.totalFilesCount + 1,
               totalCapacity := s.totalCapacity + size }
  | .observe ext owner size =>
      applyObservation
        { s with totalFilesCount := s.totalFilesCount + 1,
                 totalCapacity := s.totalCapacity + size }
        ext owner size

/-- Control flow of the main.go walk callback (lines 217-441), reduced to
the action it performs:
* err != nil and not verbose: `return nil` (skip);
* directory: totalDirectoriesCount++;
* file: totalFilesCount++; empty extension classified by opening the file,
  where an open failure sets the unknown label if verbose but is
  `return nil` otherwise (before the capacity update); then
  totalCapacity += size; then the owner lookup, whose failure is
  `return nil` when not verbose (after the capacity update) and otherwise
  yields the fallback user whose Username is ""; finally both grouping
  updates. -/
def mainAction (verbose : Bool) (e : WalkEntry) : StepAction :=
  if e.walkErr && !verbose then .skip
  else if e.info.isDir then .dir
  else
    let extRes : Option String :=
      if e.info.ext = "" then
        match e.info.openOutcome with
        | .failed =>
            if verbose then some "no_extension_unknown_format" else none
        | .opened lines => some (classifyLines lines)
      else some e.info.ext
    match extRes with
    | none => .fileSkippedAfterCount
    | some ext =>
        if e.info.lookup.isNone && !verbose then
          .fileSkippedAfterCapacity e.info.size
        else
          .observe ext (lookupIdResult e.info.lookup e.info.uid).username
            e.info.size

/-- One invocation of the main.go walk callback. -/
def scanMainStep (verbose : Bool) (s : ScanState) (e : WalkEntry) :
    ScanState :=
  applyAction s (mainAction verbose e)

/-- A completed main.go scan: the callback folded over the sequence of
entries filepath.Walk visits, starting from the zero state. -/
def scanMain (verbose : Bool) (entries : List WalkEntry) : ScanState :=
  entries.foldl (scanMainStep verbose) initState

/-- Control flow of the part_001 walk callback for an entry whose FileInfo
is present: no branch ever skips, an open failure keeps the unknown label
and a lookup failure keeps the fallback user. -/
def part1Action (i : EntryInfo) : StepAction :=
  if i.isDir then .dir
  else
    let ext :=
      if i.ext = "" then
        match i.openOutcome with
        | .failed => "no_extension_unknown_format"
        | .opened lines => classifyLines lines
      else i.ext
    .observe ext (lookupIdResult i.lookup i.uid).username i.size

/-- One invocation of the part_001 walk callback (lines 188-391).  The error
argument is only logged (`if err != nil { if verbose { log } }` -- no
`return`), after which the callback unconditionally evaluates
`info.IsDir()`; filepath.Walk passes a nil FileInfo together with the error
when lstat on an entry fails, and dereferencing it is a runtime panic,
modelled as the error result. -/
def scanPart1Step (s : ScanState) (walkErr : Bool)
    (info : Option EntryInfo) : Except String ScanState :=
  match info with
  | none =>
      Except.error
        "runtime error: invalid memory address or nil pointer dereference"
  | some i =>
      let _ := walkErr
      Except.ok (applyAction s (part1Action i))

/-! ## Worker pool of part_002 -/

/-- Outcome of `os.Stat` in processFile. -/
inductive StatOutcome where
  | ok (size : Nat)
  | notExist
  | otherErr
deriving DecidableEq

/-- One path handed to a worker: whether Lstat succeeded and reported a
symlink, and the Stat outcome. -/
structure PFile where
  lstatSymlink : Option Bool
  statOutcome : StatOutcome
deriving DecidableEq

/-- Go func `processFile` of part_002 (both worker-pool variants), reduced
to the size it returns (the worker discards the error): a symlink returns
0, a failed stat returns 0, otherwise the stat size. -/
def processFile (f : PFile) : Nat :=
  match f.lstatSymlink with
  | some true => 0
  | _ =>
      match f.statOutcome with
      | .ok size => size
      | .notExist => 0
      | .otherErr => 0

/-- The two run totals the workers update. -/
structure WorkerTotals where
  totalFileCount : Nat
  totalCapacity : Nat
deriving DecidableEq

/-- The worker loop body of part_002 (lines 205-209):
`size, _ := processFile(file); totalFileCount++; totalCapacity += size` --
the counter increments for every received path, symlink or not. -/
def workerStep (t : WorkerTotals) (f : PFile) : WorkerTotals :=
  { totalFileCount := t.totalFileCount + 1,
    totalCapacity := t.totalCapacity + processFile f }

/-- The mode reported by the non-following lstat that filepath.Walk uses
for the FileInfo it hands to the part_002 walk callback: for a symbolic
link `info.IsDir()` is false, since lstat does not follow the link. -/
inductive FileMode where
  | dir
  | symlink
  | regular
deriving DecidableEq

/-- One entry visited by the part_002 walk goroutine: the error argument of
the callback, the lstat mode of the entry, and what the worker will see for
it when it is dispatched. -/
structure P2Entry where
  walkErr : Bool
  mode : FileMode
  pfile : PFile
deriving DecidableEq

/-- The three run totals of the part_002 variants. -/
structure P2Totals where
  totalFileCount : Nat
  totalCapacity : Nat
  totalDirectories : Nat
deriving DecidableEq

/-- One entry of the part_002 scan, combining the walk callback (first
variant, lines 153-170: `if err != nil { log; return nil }`, then
`if !info.IsDir() { files <- path } else { totalDirectories++ }`) with the
worker loop body that consumes the dispatched path (lines 205-209).  Only a
directory increments totalDirectories; every dispatched non-directory,
symlink included, increments totalFileCount and adds processFile's size. -/
def p2Step (t : P2Totals) (e : P2Entry) : P2Totals :=
  if e.walkErr then t
  else if e.mode = FileMode.dir then
    { t with totalDirectories := t.totalDirectories + 1 }
  else
    { t with totalFileCount := t.totalFileCount + 1,
             totalCapacity := t.totalCapacity + processFile e.pfile }

/-! ## Derived readings of the final state -/

/-- Sum of the per-extension-group file counts. -/
def sumFTCounts (l : List FileType) : Int :=
  (l.map (fun ft => ft.count)).sum

/-- Sum of the per-extension-group sizes. -/
def sumFTSizes (l : List FileType) : Int :=
  (l.map (fun ft => ft.size)).sum

/-- Sum of the per-user-group file counts. -/
def sumUserCounts (l : List UserInfo) : Int :=
  (l.map (fun u => u.count)).sum

/-- Sum of the per-user-group sizes. -/
def sumUserSizes (l : List UserInfo) : Int :=
  (l.map (fun u => u.size)).sum

/-- The (size, count) recorded for a user inside a list of nested per-user
entries: the first entry with the matching name, as the Go loops read it. -/
def lookupUserEntry (us : List FileTypeUserInfo) (owner : String) :
    Option (Int × Int) :=
  match us with
  | [] => none
  | u :: rest =>
      if u.name = owner then some (u.size, u.count)
      else lookupUserEntry rest owner

/-- The (size, count) recorded for an extension inside a list of nested
per-extension entries. -/
def lookupExtEntry (fts : List UserFileType) (ext : String) :
    Option (Int × Int) :=
  match fts with
  | [] => none
  | ft :: rest =>
      if ft.extension = ext then some (ft.size, ft.count)
      else lookupExtEntry rest ext

/-- The (size, count) stored on the extension side for an
(extension, user) pair: the nested per-user entry of the extension group. -/
def ftPair (l : List FileType) (ext owner : String) : Option (Int × Int) :=
  match l with
  | [] => none
  | ft :: rest =>
      if ft.extension = ext then lookupUserEntry ft.users owner
      else ftPair rest ext owner

/-- The (size, count) stored on the user side for a (user, extension) pair:
the nested per-extension entry of the user group. -/
def userPair (l : List UserInfo) (owner ext : String) : Option (Int × Int) :=
  match l with
  | [] => none
  | u :: rest =>
      if u.name = owner then lookupExtEntry u.filetypes ext
      else userPair rest owner ext

/-- Effect of one observation on a stored (size, count) pair: create it at
(size, 1), or add the size and bump the count. -/
def bumpPair (o : Option (Int × Int)) (size : Int) : Option (Int × Int) :=
  match o with
  | none => some (size, 1)
  | some p => some (p.1 + size, p.2 + 1)

/-- Both sides of the cross-consistency invariant agree on every
(extension, user) pair. -/
def crossConsistent (s : ScanState) : Prop :=
  ∀ ext owner, ftPair s.fileTypes ext owner = userPair s.users owner ext

/-- An (extension, user) pair appears in at least one of the two
groupings. -/
def pairAppears (s : ScanState) (ext owner : String) : Prop :=
  ftPair s.fileTypes ext owner ≠ none ∨ userPair s.users owner ext ≠ none

instance (s : ScanState) (ext owner : String) :
    Decidable (pairAppears s ext owner) :=
  inferInstanceAs (Decidable (ftPair s.fileTypes ext owner ≠ none ∨
    userPair s.users owner ext ≠ none))

/-! ## Key uniqueness (claim C10) -/

/-- Each extension label heads at most one fileTypes entry, and inside each
entry each user name heads at most one nested entry. -/
def fileTypesUniq (l : List FileType) : Prop :=
  (l.map fun ft => ft.extension).Nodup ∧
    ∀ ft ∈ l, (ft.users.map fun u => u.name).Nodup

/-- Each user name heads at most one users entry, and inside each entry
each extension label heads at most one nested entry. -/
def usersUniq (l : List UserInfo) : Prop :=
  (l.map fun u => u.name).Nodup ∧
    ∀ u ∈ l, (u.filetypes.map fun ft => ft.extension).Nodup

/-- Key uniqueness across the whole aggregation state. -/
def aggUniq (s : ScanState) : Prop :=
  fileTypesUniq s.fileTypes ∧ usersUniq s.users

instance (l : List FileType) : Decidable (fileTypesUniq l) :=
  inferInstanceAs (Decidable ((l.map fun ft : FileType => ft.extension).Nodup ∧
    ∀ ft ∈ l, (ft.users.map fun u : FileTypeUserInfo => u.name).Nodup))

instance (l : List UserInfo) : Decidable (usersUniq l) :=
  inferInstanceAs (Decidable ((l.map fun u : UserInfo => u.name).Nodup ∧
    ∀ u ∈ l, (u.filetypes.map fun ft : UserFileType => ft.extension).Nodup))

instance (s : ScanState) : Decidable (aggUniq s) :=
  inferInstanceAs (Decidable (fileTypesUniq s.fileTypes ∧ usersUniq s.users))

/-! ## Concrete inputs for witnesses -/

/-- A regular .go file of size 10 owned by alice (lookup succeeds). -/
def demoEntry : WalkEntry :=
  { walkErr := false,
    info := { isDir := false, ext := ".go", openOutcome := .opened [],
              size := 10, uid := 1000,
              lookup := some { uid := "1000", username := "alice" } } }

/-- A regular .txt file of size 3 owned by bob. -/
def demoEntry2 : WalkEntry :=
  { walkErr := false,
    info := { isDir := false, ext := ".txt", openOutcome := .opened [],
              size := 3, uid := 1001,
              lookup := some { uid := "1001", username := "bob" } } }

/-- An aggregation state with one observation already folded in, used to
instantiate preservation hypotheses. -/
def demoState : ScanState := scanMain true [demoEntry, demoEntry2]

/-- A regular .txt file of size 100 whose owner id 1234 has no name
mapping (`user.LookupId` fails). -/
def lookupFailEntry : WalkEntry :=
  { walkErr := false,
    info := { isDir := false, ext := ".txt", openOutcome := .opened [],
              size := 100, uid := 1234, lookup := none } }

/-- A regular .txt file of size 5 whose owner id 4242 has no name
mapping. -/
def ownerFailEntry : WalkEntry :=
  { walkErr := false,
    info := { isDir := false, ext := ".txt", openOutcome := .opened [],
              size := 5, uid := 4242, lookup := none } }

/-- An extension-less file of size 50 that cannot be opened for content
sampling; its owner resolves normally. -/
def openFailEntry : WalkEntry :=
  { walkErr := false,
    info := { isDir := false, ext := "", openOutcome := .failed,
              size := 50, uid := 1000,
              lookup := some { uid := "1000", username := "alice" } } }

/-- A symbolic link dispatched to a part_002 worker; the link target would
stat at 100 bytes. -/
def demoSymlink : PFile := { lstatSymlink := some true, statOutcome := .ok 100 }

/-- The same symbolic link as one traversal entry of the part_002 scan:
the walk callback sees no error and a non-directory lstat mode, and the
worker then sees the link via its own Lstat. -/
def demoSymlinkEntry : P2Entry :=
  { walkErr := false, mode := .symlink, pfile := demoSymlink }

/-! # Theorems -/

/-- Unfolding of the sticky `isBinary` flag: over a nonempty list of lines
the classification loop ends binary exactly when the flag was already set or
some examined line has a non-printable character. -/
theorem classifyGo_eq_any (ls : List (List Nat)) (b : Bool) (ext : String)
    (h : ls ≠ []) :
    classifyGo b ext ls =
      if b || ls.any lineHasNonPrintable then "no_extension_binary"
      else "no_extension_text" := by
  induction ls generalizing b ext with
  | nil => exact absurd rfl h
  | cons line rest ih =>
      cases rest with
      | nil => simp [classifyGo]
      | cons l2 r2 =>
          rw [classifyGo, ih _ _ (by simp)]
          simp [Bool.or_assoc]

/-- C1: (refuted on src/src/main.go, shown at the failing input) with
verbose logging off, a scan of a single regular file whose owner lookup
fails counts the file in totalFilesCount and totalCapacity but adds it to
neither grouping, so the per-group sums do not match the walker totals. -/
theorem claim_C1 :
    (scanMain false [lookupFailEntry]).totalFilesCount = 1 ∧
    (scanMain false [lookupFailEntry]).totalCapacity = 100 ∧
    sumFTCounts (scanMain false [lookupFailEntry]).fileTypes = 0 ∧
    sumFTSizes (scanMain false [lookupFailEntry]).fileTypes = 0 ∧
    sumUserCounts (scanMain false [lookupFailEntry]).users = 0 ∧
    sumUserSizes (scanMain false [lookupFailEntry]).users = 0 := by
  refine ⟨rfl, rfl, rfl, rfl, rfl, rfl⟩

/-- C4: (refuted on the code, shown at the failing input) when
user.LookupId fails the fallback is `user.User{Uid: "4242"}` whose Username
field is the empty string, so with verbose logging on the file is grouped
under "" rather than under "4242"; with verbose logging off the observation
is not aggregated at all. -/
theorem claim_C4 :
    lookupIdResult none 4242 = { uid := "4242", username := "" } ∧
    (scanMain true [ownerFailEntry]).users =
      [{ name := "", size := 5, count := 1,
         filetypes := [{ extension := ".txt", size := 5, count := 1 }] }] ∧
    (scanMain false [ownerFailEntry]).users = [] := by
  refine ⟨rfl, rfl, rfl⟩

/-- C5: (refuted on the code, shown at the failing input) the second
worker-pool variant divides totalCapacity by totalFileCount with no zero
guard, so a completed scan that observed zero files hits the Go runtime
panic for integer division by zero instead of reporting 0; the first
worker-pool variant guards and yields 0. -/
theorem claim_C5 :
    reportAverageUnguarded 0 0 =
      Except.error "runtime error: integer divide by zero" ∧
    avgFileSizeGuarded 0 0 = 0 := by
  exact ⟨rfl, rfl⟩

/-- C6: (refuted on the cited part_001 callback, shown at the failing
input) when filepath.Walk reports a traversal error for a vanished entry it
passes a nil FileInfo; the part_001 callback only logs the error and then
dereferences the nil FileInfo, which is a runtime panic aborting the scan
rather than a skip. -/
theorem claim_C6 :
    scanPart1Step initState true none =
      Except.error
        "runtime error: invalid memory address or nil pointer dereference" :=
  rfl

/-- C7: (refuted on src/src/main.go, shown at the failing input) with
verbose logging off, an extension-less file that cannot be opened is
counted in totalFilesCount but then dropped: it reaches no grouping and not
even totalCapacity, instead of being aggregated under the unknown-format
label; with verbose logging on the same file is aggregated under
no_extension_unknown_format. -/
theorem claim_C7 :
    (scanMain false [openFailEntry]).totalFilesCount = 1 ∧
    (scanMain false [openFailEntry]).totalCapacity = 0 ∧
    (scanMain false [openFailEntry]).fileTypes = [] ∧
    (scanMain false [openFailEntry]).users = [] ∧
    (scanMain true [openFailEntry]).fileTypes =
      [{ extension := "no_extension_unknown_format", size := 50, count := 1,
         users := [{ name := "alice", size := 50, count := 1 }] }] := by
  refine ⟨rfl, rfl, rfl, rfl, rfl⟩

/-- C3 counterexample: a first line with a bell byte followed by a clean
last line is classified binary by the code, while the last-examined-line
rule stated by the claim would classify it text. -/
theorem claim_C3_counterexample :
    classifyLines [[7], [65]] = "no_extension_binary" ∧
    classifyLastLineSpec [[7], [65]] = "no_extension_text" := by
  exact ⟨rfl, rfl⟩

/-- C3 (amended): for a readable extension-less file with at least one
line, the label is binary exactly when some examined line (among the first
10) contains a character outside the printable range 32..126, text
otherwise; the sticky isBinary flag is never reset per line. -/
theorem claim_C3 (lines : List (List Nat)) (h : lines.take 10 ≠ []) :
    classifyLines lines =
      if (lines.take 10).any lineHasNonPrintable then "no_extension_binary"
      else "no_extension_text" := by
  unfold classifyLines
  rw [classifyGo_eq_any _ _ _ h]
  simp

/-- C3 witness: the amended claim evaluated on the two-line file of the
counterexample. -/
theorem claim_C3_witness :
    ([[7], [65]] : List (List Nat)).take 10 ≠ [] ∧
    classifyLines [[7], [65]] =
      (if (([[7], [65]] : List (List Nat)).take 10).any lineHasNonPrintable
       then "no_extension_binary" else "no_extension_text") :=
  ⟨by decide, claim_C3 [[7], [65]] (by decide)⟩

/-- C8 counterexample: a symbolic link handed to a part_002 worker still
increments totalFileCount (while contributing nothing to capacity), so it
is not excluded from the total file count. -/
theorem claim_C8_counterexample :
    (workerStep { totalFileCount := 0, totalCapacity := 0 }
        demoSymlink).totalFileCount ≠ 0 ∧
    (workerStep { totalFileCount := 0, totalCapacity := 0 }
        demoSymlink).totalCapacity = 0 := by
  exact ⟨by decide, rfl⟩

/-- C8 (amended): a symbolic link visited without a traversal error is
seen as a non-directory by the non-following lstat of filepath.Walk and
detected as a link by the non-following Lstat in processFile, so of the
three part_002 run totals it leaves totalDirectories and totalCapacity
unchanged -- but it is dispatched on the file branch and the worker loop
increments totalFileCount by one for it. -/
theorem claim_C8 (t : P2Totals) (e : P2Entry)
    (h1 : e.walkErr = false) (h2 : e.mode = FileMode.symlink)
    (h3 : e.pfile.lstatSymlink = some true) :
    p2Step t e =
      { totalFileCount := t.totalFileCount + 1,
        totalCapacity := t.totalCapacity,
        totalDirectories := t.totalDirectories } := by
  simp [p2Step, processFile, h1, h2, h3]

/-- C8 witness: the amended claim evaluated on a concrete symlink entry and
concrete running totals. -/
theorem claim_C8_witness :
    demoSymlinkEntry.walkErr = false ∧
    demoSymlinkEntry.mode = FileMode.symlink ∧
    demoSymlinkEntry.pfile.lstatSymlink = some true ∧
    p2Step { totalFileCount := 3, totalCapacity := 7, totalDirectories := 2 }
        demoSymlinkEntry =
      { totalFileCount := 4, totalCapacity := 7, totalDirectories := 2 } :=
  ⟨rfl, rfl, rfl,
    claim_C8 { totalFileCount := 3, totalCapacity := 7, totalDirectories := 2 }
      demoSymlinkEntry rfl rfl rfl⟩

/-- C9 counterexample: the part_001 formatter renders 1023 as "1023 bytes"
and 1024 as "1.00 KiB", not the "1023 B" and "1.0 KiB" stated by the
claim. -/
theorem claim_C9_counterexample :
    humanReadableSizeP1 1023 = "1023 bytes" ∧
    humanReadableSizeP1 1024 = "1.00 KiB" := by
  exact ⟨rfl, rfl⟩

/-- C9 (amended): the claimed five mappings hold for formatSize (both
part_002 worker-pool variants) and for humanReadableSize of src/src/main.go;
the part_001 humanReadableSize deviates (see the counterexample). -/
theorem claim_C9 :
    formatSize 0 = "0 B" ∧ formatSize 1023 = "1023 B" ∧
    formatSize 1024 = "1.0 KiB" ∧ formatSize 1048576 = "1.0 MiB" ∧
    formatSize 1536 = "1.5 KiB" ∧
    humanReadableSize 0 = "0 B" ∧ humanReadableSize 1023 = "1023 B" ∧
    humanReadableSize 1024 = "1.0 KiB" ∧
    humanReadableSize 1048576 = "1.0 MiB" ∧
    humanReadableSize 1536 = "1.5 KiB" := by
  refine ⟨rfl, rfl, rfl, rfl, rfl, rfl, rfl, rfl, rfl, rfl⟩

/-- How updating the nested per-user list changes what is read back: only
the updated owner is affected, and for it the stored pair is bumped. -/
theorem lookupUserEntry_update (us : List FileTypeUserInfo) (owner : String)
    (size : Int) (target : String) :
    lookupUserEntry (updateFTUsers us owner size) target =
      if target = owner then bumpPair (lookupUserEntry us target) size
      else lookupUserEntry us target := by
  induction us with
  | nil =>
      by_cases h : target = owner
      · subst h; simp [updateFTUsers, lookupUserEntry, bumpPair]
      · have h2 : owner ≠ target := fun hh => h hh.symm
        simp [updateFTUsers, lookupUserEntry, bumpPair, h, h2]
  | cons u rest ih =>
      by_cases hu : u.name = owner
      · by_cases ht : target = owner
        · subst ht
          simp [updateFTUsers, lookupUserEntry, hu, bumpPair]
        · have h2 : owner ≠ target := fun hh => ht hh.symm
          simp [updateFTUsers, lookupUserEntry, hu, h2, ht]
      · by_cases hn : u.name = target
        · have ht : target ≠ owner := fun hh => hu (hn.trans hh)
          simp [updateFTUsers, lookupUserEntry, hu, hn, ht]
        · simp [updateFTUsers, lookupUserEntry, hu, hn, ih]

/-- How updating the nested per-extension list changes what is read back. -/
theorem lookupExtEntry_update (fts : List UserFileType) (ext : String)
    (size : Int) (target : String) :
    lookupExtEntry (updateUserFiletypes fts ext size) target =
      if target = ext then bumpPair (lookupExtEntry fts target) size
      else lookupExtEntry fts target := by
  induction fts with
  | nil =>
      by_cases h : target = ext
      · subst h; simp [updateUserFiletypes, lookupExtEntry, bumpPair]
      · have h2 : ext ≠ target := fun hh => h hh.symm
        simp [updateUserFiletypes, lookupExtEntry, bumpPair, h, h2]
  | cons ft rest ih =>
      by_cases hf : ft.extension = ext
      · by_cases ht : target = ext
        · subst ht
          simp [updateUserFiletypes, lookupExtEntry, hf, bumpPair]
        · have h2 : ext ≠ target := fun hh => ht hh.symm
          simp [updateUserFiletypes, lookupExtEntry, hf, h2, ht]
      · by_cases hn : ft.extension = target
        · have ht : target ≠ ext := fun hh => hf (hn.trans hh)
          simp [updateUserFiletypes, lookupExtEntry, hf, hn, ht]
        · simp [updateUserFiletypes, lookupExtEntry, hf, hn, ih]

/-- How one fileTypes update changes the stored pair of an arbitrary
(extension, user) key: exactly the updated pair is bumped. -/
theorem ftPair_update (l : List FileType) (ext owner : String) (size : Int)
    (e u : String) :
    ftPair (updateFileTypes l ext owner size) e u =
      if e = ext ∧ u = owner then bumpPair (ftPair l e u) size
      else ftPair l e u := by
  induction l with
  | nil =>
      by_cases he : e = ext
      · subst he
        by_cases hu : u = owner
        · subst hu
          simp [updateFileTypes, ftPair, lookupUserEntry, bumpPair]
        · have h2 : owner ≠ u := fun hh => hu hh.symm
          simp [updateFileTypes, ftPair, lookupUserEntry, hu, h2]
      · have h2 : ext ≠ e := fun hh => he hh.symm
        simp [updateFileTypes, ftPair, he, h2]
  | cons ft rest ih =>
      by_cases hf : ft.extension = ext
      · by_cases he : e = ext
        · have hh : ft.extension = e := hf.trans he.symm
          simp [updateFileTypes, ftPair, hf, hh, he,
            lookupUserEntry_update]
        · have hh : ext ≠ e := fun x => he x.symm
          simp [updateFileTypes, ftPair, hf, hh, he]
      · by_cases hh : ft.extension = e
        · have he : e ≠ ext := fun x => hf (hh.trans x)
          simp [updateFileTypes, ftPair, hf, hh, he]
        · simp [updateFileTypes, ftPair, hf, hh, ih]

/-- How one users update changes the stored pair of an arbitrary
(user, extension) key. -/
theorem userPair_update (l : List UserInfo) (owner ext : String) (size : Int)
    (u e : String) :
    userPair (updateUsers l owner ext size) u e =
      if u = owner ∧ e = ext then bumpPair (userPair l u e) size
      else userPair l u e := by
  induction l with
  | nil =>
      by_cases hu : u = owner
      · subst hu
        by_cases he : e = ext
        · subst he
          simp [updateUsers, userPair, lookupExtEntry, bumpPair]
        · have h2 : ext ≠ e := fun hh => he hh.symm
          simp [updateUsers, userPair, lookupExtEntry, he, h2]
      · have h2 : owner ≠ u := fun hh => hu hh.symm
        simp [updateUsers, userPair, hu, h2]
  | cons w rest ih =>
      by_cases hw : w.name = owner
      · by_cases hu : u = owner
        · have hh : w.name = u := hw.trans hu.symm
          simp [updateUsers, userPair, hw, hh, hu, lookupExtEntry_update]
        · have hh : owner ≠ u := fun x => hu x.symm
          simp [updateUsers, userPair, hw, hh, hu]
      · by_cases hh : w.name = u
        · have hu : u ≠ owner := fun x => hw (hh.trans x)
          simp [updateUsers, userPair, hw, hh, hu]
        · simp [updateUsers, userPair, hw, hh, ih]

/-- One full observation preserves cross-consistency: both sides bump the
same pair. -/
theorem crossConsistent_applyObservation (s : ScanState)
    (h : crossConsistent s) (ext owner : String) (size : Int) :
    crossConsistent (applyObservation s ext owner size) := by
  intro e u
  show ftPair (updateFileTypes s.fileTypes ext owner size) e u =
    userPair (updateUsers s.users owner ext size) u e
  rw [ftPair_update, userPair_update]
  by_cases h1 : e = ext <;> by_cases h2 : u = owner <;>
    simp [h1, h2, h e u, h ext owner, h ext u, h e owner]

/-- Every step action preserves cross-consistency (the counter-only actions
leave both groupings untouched). -/
theorem crossConsistent_applyAction (s : ScanState) (a : StepAction)
    (h : crossConsistent s) : crossConsistent (applyAction s a) := by
  cases a with
  | skip => exact h
  | dir => exact h
  | fileSkippedAfterCount => exact h
  | fileSkippedAfterCapacity size => exact h
  | observe ext owner size =>
      exact crossConsistent_applyObservation _ (fun e u => h e u) ext owner size

/-- Cross-consistency is an invariant of the whole main.go walk. -/
theorem crossConsistent_foldl (verbose : Bool) (entries : List WalkEntry)
    (s : ScanState) (h : crossConsistent s) :
    crossConsistent (entries.foldl (scanMainStep verbose) s) := by
  induction entries generalizing s with
  | nil => exact h
  | cons e rest ih => exact ih _ (crossConsistent_applyAction _ _ h)

/-- C2: for every completed scan and every (extension, user) pair appearing
in either grouping, the (size, count) stored in the extension group's
per-user entry equals the (size, count) stored in the user group's
per-extension entry. -/
theorem claim_C2 (verbose : Bool) (entries : List WalkEntry)
    (ext owner : String)
    (_h : pairAppears (scanMain verbose entries) ext owner) :
    ftPair (scanMain verbose entries).fileTypes ext owner =
      userPair (scanMain verbose entries).users owner ext := by
  have hinv := crossConsistent_foldl verbose entries initState
    (fun e u => rfl)
  exact hinv ext owner

/-- C2 witness: the cross-consistency equality evaluated on a concrete
completed two-file scan at a pair appearing in both groupings. -/
theorem claim_C2_witness :
    pairAppears (scanMain true [demoEntry, demoEntry2]) ".go" "alice" ∧
    ftPair (scanMain true [demoEntry, demoEntry2]).fileTypes ".go" "alice" =
      userPair (scanMain true [demoEntry, demoEntry2]).users "alice" ".go" :=
  ⟨by decide, claim_C2 true [demoEntry, demoEntry2] ".go" "alice" (by decide)⟩

/-- Appending a fresh key to a duplicate-free list keeps it
duplicate-free. -/
theorem nodup_append_singleton {l : List String} {k : String}
    (h : l.Nodup) (hk : k ∉ l) : (l ++ [k]).Nodup := by
  induction l with
  | nil => simp
  | cons x rest ih =>
      simp only [List.nodup_cons] at h
      simp only [List.cons_append, List.nodup_cons]
      refine ⟨?_, ih h.2 (fun hm => hk (List.mem_cons_of_mem x hm))⟩
      intro hmem
      rcases List.mem_append.mp hmem with h1 | h2
      · exact h.1 h1
      · rcases List.mem_singleton.mp h2 with rfl
        exact hk (List.mem_cons_self x rest)

/-- The name column after a nested per-user update: unchanged when the
owner was present, extended by the owner otherwise. -/
theorem updateFTUsers_names (us : List FileTypeUserInfo) (owner : String)
    (size : Int) :
    (updateFTUsers us owner size).map (fun u => u.name) =
      if owner ∈ us.map (fun u => u.name) then us.map (fun u => u.name)
      else us.map (fun u => u.name) ++ [owner] := by
  induction us with
  | nil => simp [updateFTUsers]
  | cons u rest ih =>
      by_cases h : u.name = owner
      · simp [updateFTUsers, h]
      · by_cases hm : owner ∈ rest.map (fun u => u.name)
        · simp [updateFTUsers, h, ih, hm, Ne.symm h]
        · simp [updateFTUsers, h, ih, hm, Ne.symm h]

/-- Nested per-user updates keep the name column duplicate-free. -/
theorem updateFTUsers_names_nodup (us : List FileTypeUserInfo)
    (owner : String) (size : Int)
    (h : (us.map (fun u => u.name)).Nodup) :
    ((updateFTUsers us owner size).map (fun u => u.name)).Nodup := by
  rw [updateFTUsers_names]
  split_ifs with hm
  · exact h
  · exact nodup_append_singleton h hm

/-- The extension column after a nested per-extension update. -/
theorem updateUserFiletypes_exts (fts : List UserFileType) (ext : String)
    (size : Int) :
    (updateUserFiletypes fts ext size).map (fun ft => ft.extension) =
      if ext ∈ fts.map (fun ft => ft.extension) then
        fts.map (fun ft => ft.extension)
      else fts.map (fun ft => ft.extension) ++ [ext] := by
  induction fts with
  | nil => simp [updateUserFiletypes]
  | cons ft rest ih =>
      by_cases h : ft.extension = ext
      · simp [updateUserFiletypes, h]
      · by_cases hm : ext ∈ rest.map (fun ft => ft.extension)
        · simp [updateUserFiletypes, h, ih, hm, Ne.symm h]
        · simp [updateUserFiletypes, h, ih, hm, Ne.symm h]

/-- Nested per-extension updates keep the extension column
duplicate-free. -/
theorem updateUserFiletypes_exts_nodup (fts : List UserFileType)
    (ext : String) (size : Int)
    (h : (fts.map (fun ft => ft.extension)).Nodup) :
    ((updateUserFiletypes fts ext size).map (fun ft => ft.extension)).Nodup := by
  rw [updateUserFiletypes_exts]
  split_ifs with hm
  · exact h
  · exact nodup_append_singleton h hm

/-- The extension column of the fileTypes list after one update. -/
theorem updateFileTypes_exts (l : List FileType) (ext owner : String)
    (size : Int) :
    (updateFileTypes l ext owner size).map (fun ft => ft.extension) =
      if ext ∈ l.map (fun ft => ft.extension) then
        l.map (fun ft => ft.extension)
      else l.map (fun ft => ft.extension) ++ [ext] := by
  induction l with
  | nil => simp [updateFileTypes]
  | cons ft rest ih =>
      by_cases h : ft.extension = ext
      · simp [updateFileTypes, h]
      · by_cases hm : ext ∈ rest.map (fun ft => ft.extension)
        · simp [updateFileTypes, h, ih, hm, Ne.symm h]
        · simp [updateFileTypes, h, ih, hm, Ne.symm h]

/-- The name column of the users list after one update. -/
theorem updateUsers_names (l : List UserInfo) (owner ext : String)
    (size : Int) :
    (updateUsers l owner ext size).map (fun u => u.name) =
      if owner ∈ l.map (fun u => u.name) then l.map (fun u => u.name)
      else l.map (fun u => u.name) ++ [owner] := by
  induction l with
  | nil => simp [updateUsers]
  | cons u rest ih =>
      by_cases h : u.name = owner
      · simp [updateUsers, h]
      · by_cases hm : owner ∈ rest.map (fun u => u.name)
        · simp [updateUsers, h, ih, hm, Ne.symm h]
        · simp [updateUsers, h, ih, hm, Ne.symm h]

/-- A fileTypes update keeps every nested name column duplicate-free. -/
theorem updateFileTypes_nested (l : List FileType) (ext owner : String)
    (size : Int)
    (h : ∀ ft ∈ l, (ft.users.map (fun u => u.name)).Nodup) :
    ∀ ft ∈ updateFileTypes l ext owner size,
      (ft.users.map (fun u => u.name)).Nodup := by
  induction l with
  | nil =>
      intro ft hft
      simp [updateFileTypes] at hft
      subst hft
      simp
  | cons a rest ih =>
      intro ft hft
      by_cases ha : a.extension = ext
      · simp [updateFileTypes, ha] at hft
        rcases hft with rfl | hft
        · exact updateFTUsers_names_nodup _ _ _ (h a (by simp))
        · exact h ft (by simp [hft])
      · simp [updateFileTypes, ha] at hft
        rcases hft with rfl | hft
        · exact h _ (by simp)
        · exact ih (fun x hx => h x (by simp [hx])) _ hft

/-- A users update keeps every nested extension column duplicate-free. -/
theorem updateUsers_nested (l : List UserInfo) (owner ext : String)
    (size : Int)
    (h : ∀ u ∈ l, (u.filetypes.map (fun ft => ft.extension)).Nodup) :
    ∀ u ∈ updateUsers l owner ext size,
      (u.filetypes.map (fun ft => ft.extension)).Nodup := by
  induction l with
  | nil =>
      intro u hu
      simp [updateUsers] at hu
      subst hu
      simp
  | cons a rest ih =>
      intro u hu
      by_cases ha : a.name = owner
      · simp [updateUsers, ha] at hu
        rcases hu with rfl | hu
        · exact updateUserFiletypes_exts_nodup _ _ _ (h a (by simp))
        · exact h u (by simp [hu])
      · simp [updateUsers, ha] at hu
        rcases hu with rfl | hu
        · exact h _ (by simp)
        · exact ih (fun x hx => h x (by simp [hx])) _ hu

/-- One fileTypes update preserves the whole fileTypes uniqueness
invariant. -/
theorem fileTypesUniq_update (l : List FileType) (ext owner : String)
    (size : Int) (h : fileTypesUniq l) :
    fileTypesUniq (updateFileTypes l ext owner size) := by
  obtain ⟨h1, h2⟩ := h
  refine ⟨?_, updateFileTypes_nested l ext owner size h2⟩
  rw [updateFileTypes_exts]
  split_ifs with hm
  · exact h1
  · exact nodup_append_singleton h1 hm

/-- One users update preserves the whole users uniqueness invariant. -/
theorem usersUniq_update (l : List UserInfo) (owner ext : String)
    (size : Int) (h : usersUniq l) :
    usersUniq (updateUsers l owner ext size) := by
  obtain ⟨h1, h2⟩ := h
  refine ⟨?_, updateUsers_nested l owner ext size h2⟩
  rw [updateUsers_names]
  split_ifs with hm
  · exact h1
  · exact nodup_append_singleton h1 hm

/-- A full observation preserves key uniqueness on both sides. -/
theorem aggUniq_applyObservation (s : ScanState) (ext owner : String)
    (size : Int) (h : aggUniq s) :
    aggUniq (applyObservation s ext owner size) :=
  ⟨fileTypesUniq_update _ _ _ _ h.1, usersUniq_update _ _ _ _ h.2⟩

/-- Every step action preserves key uniqueness. -/
theorem aggUniq_applyAction (s : ScanState) (a : StepAction)
    (h : aggUniq s) : aggUniq (applyAction s a) := by
  cases a with
  | skip => exact h
  | dir => exact h
  | fileSkippedAfterCount => exact h
  | fileSkippedAfterCapacity size => exact h
  | observe ext owner size => exact aggUniq_applyObservation _ _ _ _ h

/-- Key uniqueness is an invariant of the whole main.go walk. -/
theorem aggUniq_foldl (verbose : Bool) (entries : List WalkEntry)
    (s : ScanState) (h : aggUniq s) :
    aggUniq (entries.foldl (scanMainStep verbose) s) := by
  induction entries generalizing s with
  | nil => exact h
  | cons e rest ih => exact ih _ (aggUniq_applyAction _ _ h)

/-- C10: in every aggregation state reachable by a completed scan each
extension label heads at most one fileTypes entry, each user name heads at
most one users entry, and every nested key column is duplicate-free; and
every lookup-or-create observation update preserves this key uniqueness
from any state that has it. -/
theorem claim_C10 :
    (∀ verbose entries, aggUniq (scanMain verbose entries)) ∧
    (∀ s ext owner size,
      aggUniq s → aggUniq (applyObservation s ext owner size)) := by
  constructor
  · intro verbose entries
    refine aggUniq_foldl verbose entries initState ?_
    exact ⟨⟨by simp [initState], by simp [initState]⟩,
      ⟨by simp [initState], by simp [initState]⟩⟩
  · intro s ext owner size h
    exact aggUniq_applyObservation s ext owner size h

/-- C10 witness: the preservation half evaluated on a concrete reachable
state and a concrete observation. -/
theorem claim_C10_witness :
    aggUniq demoState ∧ aggUniq (applyObservation demoState ".md" "carol" 4) :=
  ⟨by decide, claim_C10.2 demoState ".md" "carol" 4 (by decide)⟩
